import Mathlib

/-!
Verification development for the InfiniBand DRA example driver.

The Go sources are shallowly embedded as executable Lean definitions:

* `internal/sriov` (VF lifecycle): `ProvisionVFs`, `waitForVFs` run against an
  explicit `PFEnv` describing the sysfs reads/writes/poll observations for one
  PF.  Every call of `sysfs.SetSRIOVNumVFs` is recorded in a write log.
* the `ib` profile: the fleet-provisioning loop `provisionVFs`, the device
  fusion step of `EnumerateDevices`, `applyIbConfig` (CDI container edits),
  and `MoveNetdevHookHelper`.
* `internal/ibverbs`: `EffectiveSpeed` and the port-state rendering.

Go `fmt` verbs used by the sources (`%d`, `%x`, `%X` with padding) are
translated by the explicit formatters below.
-/

namespace DRA

/-! ### Decimal / hexadecimal formatting (Go fmt verbs) -/

/-- Decimal digits, most significant first, by structural recursion on a
fuel bound (any `fuel > n` yields the digits of `n`). -/
def natDigitsAux : Nat → Nat → List Nat
  | 0, _ => []
  | fuel + 1, n => if n < 10 then [n] else natDigitsAux fuel (n / 10) ++ [n % 10]

/-- Decimal digits of `n`, most significant first (the digit values, not
characters).  Mirrors what Go `%d` prints for a non-negative integer. -/
def natDigits (n : Nat) : List Nat := natDigitsAux (n + 1) n

/-- Render a digit value `0 ≤ d ≤ 9` as its ASCII character. -/
def digitChar (d : Nat) : Char := Char.ofNat (48 + d)

/-- Go `fmt` verb `%d` on a non-negative integer. -/
def decRepr (n : Nat) : String := ⟨(natDigits n).map digitChar⟩

/-- Go `fmt` verb `%d` on an `int`. -/
def intRepr (i : Int) : String :=
  if i < 0 then "-" ++ decRepr i.natAbs else decRepr i.natAbs

/-- Lower-case hexadecimal digit character. -/
def hexCharLower (d : Nat) : Char :=
  if d < 10 then Char.ofNat (48 + d) else Char.ofNat (87 + d)

/-- Upper-case hexadecimal digit character. -/
def hexCharUpper (d : Nat) : Char :=
  if d < 10 then Char.ofNat (48 + d) else Char.ofNat (55 + d)

/-- Fixed-width zero-padded hexadecimal rendering of `n` (width `w` digits,
most significant first).  For values that fit in `w` digits this is exactly
Go's `%0wx` / `%0wX` depending on the digit alphabet `ch`. -/
def hexFixed (ch : Nat → Char) (w n : Nat) : String :=
  ⟨(List.range w).map fun i => ch (n / 16 ^ (w - 1 - i) % 16)⟩

/-- Go `%02x` of one byte. -/
def hex02 (n : Nat) : String := hexFixed hexCharLower 2 n

/-- Go `%016x` of a `uint64`. -/
def hex016 (n : Nat) : String := hexFixed hexCharLower 16 n

/-- Go `%04X` of a `uint16`. -/
def hex04Upper (n : Nat) : String := hexFixed hexCharUpper 4 n

/-! ### Splitting on the first occurrence of a separator

Embeds Go `strings.SplitN(s, sep, 2)` for a non-empty separator: the result
is `some (before, after)` when `sep` occurs in `s` (split at the first
occurrence) and `none` when it does not (Go then returns the 1-element
slice `[s]`). -/

/-- Split a character list at the first occurrence of `sep`. -/
def splitFirst (sep : List Char) : List Char → Option (List Char × List Char)
  | [] => none
  | c :: cs =>
    if sep.isPrefixOf (c :: cs) then
      some ([], (c :: cs).drop sep.length)
    else
      match splitFirst sep cs with
      | some (b, a) => some (c :: b, a)
      | none => none

/-- Go `strings.SplitN(s, "-port", 2)` as used by `applyIbConfig`:
`some (parts[0], parts[1])` when the separator occurs, `none` otherwise. -/
def splitNPort (s : String) : Option (String × String) :=
  match splitFirst "-port".data s.data with
  | some (b, a) => some (⟨b⟩, ⟨a⟩)
  | none => none

/-! ### `internal/sriov`: VF lifecycle manager

`PFEnv` packages the results of the sysfs operations `ProvisionVFs` performs
against one PF: the two reads, the outcome of each attempted write
(`none` = success), and the poll observations (`listVFs k` is the result of
the `sysfs.ListVFs` call in poll iteration `k`: the number of `virtfn`
entries, or a read error). -/

structure PFEnv where
  totalVFs : Except String Nat
  numVFs : Except String Nat
  setResult : Nat → Option String
  listVFs : Nat → Except String Nat

/-- Structured form of the errors `ProvisionVFs`/`waitForVFs` build with
`fmt.Errorf`; `renderProvError` reproduces the formatted strings. -/
inductive ProvError where
  | getTotalVFs (pf msg : String)
  | exceedsMax (desired max : Nat) (pf : String)
  | getNumVFs (pf msg : String)
  | resetFailed (pf msg : String)
  | setFailed (desired : Nat) (pf msg : String)
  | vfsTimeout (expected : Nat) (pf : String)
deriving DecidableEq

/-- The error strings produced by `fmt.Errorf` in `ProvisionVFs` and
`waitForVFs` (including the `%w` wrapping applied by `ProvisionVFs`). -/
def renderProvError : ProvError → String
  | .getTotalVFs pf msg => "get sriov_totalvfs for " ++ pf ++ ": " ++ msg
  | .exceedsMax d m pf =>
      "requested " ++ decRepr d ++ " VFs exceeds maximum " ++ decRepr m ++ " for PF " ++ pf
  | .getNumVFs pf msg => "get sriov_numvfs for " ++ pf ++ ": " ++ msg
  | .resetFailed pf msg => "reset sriov_numvfs to 0 for " ++ pf ++ ": " ++ msg
  | .setFailed d pf msg =>
      "set sriov_numvfs to " ++ decRepr d ++ " for " ++ pf ++ ": " ++ msg
  | .vfsTimeout e pf =>
      "VFs did not appear for " ++ pf ++ ": timed out waiting for " ++ decRepr e ++
        " VFs on PF " ++ pf

/-- Number of poll iterations of `waitForVFs`: the 30 s `vfSettleTimeout`
divided by the 500 ms `vfPollInterval` (the Go loop runs on wall-clock time;
with instantaneous `ListVFs` calls it performs one check per interval). -/
def vfMaxPolls : Nat := 60

/-- The poll loop body of `waitForVFs`: starting at iteration `k` with
`fuel` iterations left, does some iteration observe at least `expected`
VF entries?  An errored `ListVFs` call is treated like "not yet there"
(the Go code checks `err == nil && len(vfs) >= expected`). -/
def waitForVFsAux (env : PFEnv) (expected : Nat) : Nat → Nat → Bool
  | 0, _ => false
  | fuel + 1, k =>
    match env.listVFs k with
    | .ok n => if expected ≤ n then true else waitForVFsAux env expected fuel (k + 1)
    | .error _ => waitForVFsAux env expected fuel (k + 1)

/-- `waitForVFs` polls sysfs until `expected` VFs appear or the timeout is
reached. -/
def waitForVFs (env : PFEnv) (pfPCIAddr : String) (expected : Nat) : Except ProvError Unit :=
  if waitForVFsAux env expected vfMaxPolls 0 then .ok ()
  else .error (.vfsTimeout expected pfPCIAddr)

/-- `sriov.ProvisionVFs`: ensures `desired` VFs exist for the PF at
`pfPCIAddr`.  Returns the Go function's result together with the log of
values written to the `sriov_numvfs` control file, in write order. -/
def ProvisionVFs (env : PFEnv) (pfPCIAddr : String) (desired : Nat) :
    Except ProvError Unit × List Nat :=
  match env.totalVFs with
  | .error e => (.error (.getTotalVFs pfPCIAddr e), [])
  | .ok totalVFs =>
    if totalVFs < desired then
      (.error (.exceedsMax desired totalVFs pfPCIAddr), [])
    else
      match env.numVFs with
      | .error e => (.error (.getNumVFs pfPCIAddr e), [])
      | .ok currentVFs =>
        if currentVFs = desired then
          (.ok (), [])
        else if 0 < currentVFs then
          match env.setResult 0 with
          | some e => (.error (.resetFailed pfPCIAddr e), [0])
          | none =>
            match env.setResult desired with
            | some e => (.error (.setFailed desired pfPCIAddr e), [0, desired])
            | none =>
              match waitForVFs env pfPCIAddr desired with
              | .error pe => (.error pe, [0, desired])
              | .ok _ => (.ok (), [0, desired])
        else
          match env.setResult desired with
          | some e => (.error (.setFailed desired pfPCIAddr e), [desired])
          | none =>
            match waitForVFs env pfPCIAddr desired with
            | .error pe => (.error pe, [desired])
            | .ok _ => (.ok (), [desired])

/-- `sriov.PFInfo`. -/
structure PFInfo where
  PCIAddress : String
  IBDevName : String
  TotalVFs : Nat
  CurrentVFs : Nat

/-- The per-PF loop of the `ib` profile's `provisionVFs`: desired count is
clamped to the PF's capacity, and the loop returns on the first failing
adapter, wrapping the error as `provision VFs on <pci>: <err>`.  The second
component records the PCI addresses of the PFs on which provisioning was
attempted, in order. -/
def provisionVFsLoop (numVFs : Nat) (envOf : String → PFEnv) :
    List PFInfo → Except (String × ProvError) Unit × List String
  | [] => (.ok (), [])
  | pf :: rest =>
    let desired := min numVFs pf.TotalVFs
    match ProvisionVFs (envOf pf.PCIAddress) pf.PCIAddress desired with
    | (.error e, _) => (.error (pf.PCIAddress, e), [pf.PCIAddress])
    | (.ok _, _) =>
      match provisionVFsLoop numVFs envOf rest with
      | (r, attempted) => (r, pf.PCIAddress :: attempted)

/-- `Profile.provisionVFs` over an already discovered PF fleet (the
`DiscoverSRIOVPFs` read is abstracted as the `pfs` argument; an empty fleet
is a no-op success). -/
def provisionVFs (numVFs : Nat) (envOf : String → PFEnv) (pfs : List PFInfo) :
    Except (String × ProvError) Unit × List String :=
  provisionVFsLoop numVFs envOf pfs

/-! ### `internal/ibverbs`: port attributes -/

/-- `PortState.String()`: Go `switch` over the IB port-state code. -/
def portStateString (s : Int) : String :=
  if s = 1 then "Down"
  else if s = 2 then "Init"
  else if s = 3 then "Armed"
  else if s = 4 then "Active"
  else "Unknown"

/-- The width-multiplier `switch` of `PortInfo.EffectiveSpeed`: codes
1/2/4/8 give 1x/4x/8x/12x lanes; any other code leaves the initial value 1. -/
def widthMultiplier (w : Int) : Int :=
  if w = 1 then 1
  else if w = 2 then 4
  else if w = 4 then 8
  else if w = 8 then 12
  else 1

/-- The base-speed `switch` of `PortInfo.EffectiveSpeed`: `some` base rate in
Gb/s for the recognized generation codes, `none` for the `default` branch. -/
def baseSpeed (s : Int) : Option Int :=
  if s = 1 then some 2
  else if s = 2 then some 5
  else if s = 4 then some 10
  else if s = 8 then some 10
  else if s = 16 then some 14
  else if s = 32 then some 25
  else if s = 64 then some 50
  else if s = 128 then some 100
  else if s = 256 then some 200
  else none

/-- `PortInfo.EffectiveSpeed` as a function of the raw `active_speed` and
`active_width` codes. -/
def EffectiveSpeed (speed width : Int) : String :=
  let m := widthMultiplier width
  match baseSpeed speed with
  | none => intRepr (speed * m) ++ "Gb/s"
  | some b => intRepr (b * m) ++ "Gb/s"

/-! ### The `ib` profile: device fusion (`EnumerateDevices` step 4) -/

/-- One port as reported by `ibverbs.queryPort`. -/
structure IbPort where
  PortNum : Nat
  State : Int
  ActiveSpeed : Int
  ActiveWidth : Int
  GID : List Nat

/-- One device as reported by `ibverbs.queryDevice`. -/
structure IbDevice where
  name : String
  NodeGUID : Nat
  FirmwareVersion : String
  Ports : List IbPort

/-- `sysfs.IBDeviceInfo` (the fields the fusion step consumes). -/
structure SysfsInfo where
  name : String
  PCIAddress : String
  NUMANode : Int
  IsVF : Bool
  ParentPF : String
  NetDevices : List String

/-- `ib.DeviceEntry`. -/
structure DeviceEntry where
  DeviceName : String
  IBDevName : String
  PortNum : Nat
  -- the Go field is named `Type` ("PF" or "VF"); that is a Lean keyword
  DevType : String
  LinkSpeed : String
  PortState : String
  FirmwareVersion : String
  NodeGUID : String
  PortGUID : String
  NUMANode : Int
  PCIAddress : String
  ParentDevice : String
  NetDevices : List String
deriving DecidableEq

/-- `DeviceInfo.NodeGUIDString`: Go `fmt.Sprintf("%016x", guid)`. -/
def nodeGUIDString (guid : Nat) : String := hex016 guid

/-- `ib.formatGID`: exactly 16 bytes render as 8 colon-separated groups of
`%02x%02x`; any other length yields the empty string. -/
def formatGID (gid : List Nat) : String :=
  if gid.length = 16 then
    String.intercalate ":"
      ((List.range 8).map fun i => hex02 (gid.getD (2 * i) 0) ++ hex02 (gid.getD (2 * i + 1) 0))
  else ""

/-- The composite DRA device name `fmt.Sprintf("%s-port%d", name, portNum)`. -/
def mkDeviceName (name : String) (portNum : Nat) : String :=
  name ++ "-port" ++ decRepr portNum

/-- Lookup in the Go map `sysfsMap` built by inserting the sysfs records in
slice order (a later record with the same name overwrites an earlier one). -/
def sysfsLookup (ds : List SysfsInfo) (name : String) : Option SysfsInfo :=
  (ds.filter fun d => d.name = name).getLast?

/-- Lookup in the Go map `pciToIBDev` (records with empty PCI address are not
inserted; later records overwrite). -/
def pciLookup (ds : List SysfsInfo) (pci : String) : Option String :=
  ((ds.filter fun d => d.PCIAddress ≠ "" ∧ d.PCIAddress = pci).getLast?).map fun d => d.name

/-- The body of the fusion loop of `EnumerateDevices` (step 4): build one
`DeviceEntry` for port `port` of `ibDev`, augmented from the matching sysfs
record `si` when one exists. -/
def buildEntry (pciToIBDev : String → Option String) (ibDev : IbDevice)
    (si : Option SysfsInfo) (port : IbPort) : DeviceEntry :=
  let base : DeviceEntry :=
    { DeviceName := mkDeviceName ibDev.name port.PortNum
      IBDevName := ibDev.name
      PortNum := port.PortNum
      DevType := ""
      LinkSpeed := EffectiveSpeed port.ActiveSpeed port.ActiveWidth
      PortState := portStateString port.State
      FirmwareVersion := ibDev.FirmwareVersion
      NodeGUID := nodeGUIDString ibDev.NodeGUID
      PortGUID := formatGID port.GID
      NUMANode := -1
      PCIAddress := ""
      ParentDevice := ""
      NetDevices := [] }
  match si with
  | none => { base with DevType := "PF" }
  | some s =>
    { base with
      PCIAddress := s.PCIAddress
      NUMANode := s.NUMANode
      NetDevices := s.NetDevices
      DevType := if s.IsVF then "VF" else "PF"
      ParentDevice :=
        if s.IsVF then
          if s.ParentPF ≠ "" then (pciToIBDev s.ParentPF).getD "" else ""
        else "" }

/-- Step 4 of `EnumerateDevices`: the fused, ordered `DeviceEntry` list
(adapters in `ibverbs` order, ports in reported order). -/
def buildEntries (ibDevices : List IbDevice) (sysfsDevices : List SysfsInfo) :
    List DeviceEntry :=
  ibDevices.flatMap fun d =>
    d.Ports.map (buildEntry (pciLookup sysfsDevices) d (sysfsLookup sysfsDevices d.name))

/-! ### The `ib` profile: config applier (`applyIbConfig`) -/

/-- `v1alpha1.IbConfig`: three independent optional scalar fields.  `Pkey` is
a Go `*uint16`, `TrafficClass` a `*uint8`, `MTU` a `*IbMTU` (an `int`). -/
structure IbConfig where
  Pkey : Option Nat
  TrafficClass : Option Nat
  MTU : Option Int

/-- `IbMTU.Validate`: the enumerated set of valid InfiniBand MTU values. -/
def ibMTUValid (m : Int) : Bool :=
  m = 256 || m = 512 || m = 1024 || m = 2048 || m = 4096

/-- Modelled from the spec: the repository calls `IbConfig.Validate` (its
body is not among the given sources; only its unit tests are).  Per the spec,
a set partition key must lie in 1..0xFFFF, a set traffic class in 0..255, and
a set MTU in the enumerated set; unset (`nil`) fields are valid. -/
def IbConfig.validate (c : IbConfig) : Bool :=
  (match c.Pkey with
   | none => true
   | some p => decide (1 ≤ p) && decide (p ≤ 0xFFFF)) &&
  (match c.TrafficClass with
   | none => true
   | some t => decide (t ≤ 255)) &&
  (match c.MTU with
   | none => true
   | some m => ibMTUValid m)

/-- One CDI hook descriptor (`cdispec.Hook`). -/
structure Hook where
  HookName : String
  Path : String
  Args : List String
deriving DecidableEq

/-- One device's CDI container edits: ordered environment assignments plus
the hook list. -/
structure ContainerEdits where
  Env : List String
  Hooks : List Hook
deriving DecidableEq

/-- The hook helper path used by `applyIbConfig`. -/
def hookPath : String := "/usr/bin/dra-example-kubeletplugin"

/-- The per-device body of the `applyIbConfig` loop: the container edits
emitted for the device named `device` at position `i` of the allocation
result list. -/
def deviceEdits (config : IbConfig) (i : Nat) (device : String) : ContainerEdits :=
  let envs := ["IB_DEVICE_" ++ decRepr i ++ "=" ++ device]
  let parts := splitNPort device
  let envs :=
    match parts with
    | some (ib, port) =>
      envs ++ ["IB_DEVICE_" ++ decRepr i ++ "_IBDEV=" ++ ib,
               "IB_DEVICE_" ++ decRepr i ++ "_PORT=" ++ port]
    | none => envs
  let envs :=
    match config.Pkey with
    | some p => envs ++ ["IB_DEVICE_" ++ decRepr i ++ "_PKEY=0x" ++ hex04Upper p]
    | none => envs
  let envs :=
    match config.TrafficClass with
    | some t => envs ++ ["IB_DEVICE_" ++ decRepr i ++ "_TRAFFIC_CLASS=" ++ decRepr t]
    | none => envs
  let envs :=
    match config.MTU with
    | some m => envs ++ ["IB_DEVICE_" ++ decRepr i ++ "_MTU=" ++ intRepr m]
    | none => envs
  let hooks :=
    match parts with
    | some (ib, _) =>
      [{ HookName := "createRuntime"
         Path := hookPath
         Args := [hookPath, "move-netdev", "--ib-dev", ib] }]
    | none => []
  { Env := envs, Hooks := hooks }

/-- `applyIbConfig`: normalize (a nil check; the config is present here) and
defensively re-validate the config, then emit the per-device edits in
allocation-result order.  The Go function stores the edits in a map keyed by
the device name; the list of key/edits pairs below retains the iteration
order. -/
def applyIbConfig (config : IbConfig) (results : List String) :
    Except String (List (String × ContainerEdits)) :=
  if config.validate then
    .ok (results.mapIdx fun i device => (device, deviceEdits config i device))
  else
    .error "error validating IB config"

/-! ### The `ib` profile: out-of-process hook helper -/

/-- Environment of one `MoveNetdevHookHelper` invocation: the sysfs lookup
result (the adapter's associated network interface names, or a read error),
the outcome of `netns.MoveNetdevToContainerNetns` per interface
(`none` = success), and the outcome of `netns.MoveRDMADevToContainerNetns`. -/
structure HookEnv where
  devInfo : Except String (List String)
  moveNetdev : String → Option String
  moveRDMA : Option String

/-- The interface-move loop of `MoveNetdevHookHelper`: move each interface in
order, returning the first failure. -/
def moveNetdevLoop (move : String → Option String) : List String → Option (String × String)
  | [] => none
  | nd :: rest =>
    match move nd with
    | some e => some (nd, e)
    | none => moveNetdevLoop move rest

/-- `ib.MoveNetdevHookHelper`: a failed interface move fails the invocation;
a failed RDMA-device move is logged and swallowed. -/
def MoveNetdevHookHelper (env : HookEnv) (ibDevName : String) : Except String Unit :=
  match env.devInfo with
  | .error e => .error ("get sysfs info for " ++ ibDevName ++ ": " ++ e)
  | .ok netDevs =>
    match moveNetdevLoop env.moveNetdev netDevs with
    | some (nd, e) => .error ("move netdev " ++ nd ++ ": " ++ e)
    | none =>
      match env.moveRDMA with
      | some _ => .ok ()
      | none => .ok ()

/-! ## Theorems -/

/-- C2: a request strictly above the PF's reported capacity makes the direct
entry point `ProvisionVFs` fail with the hard error naming the requested and
maximum counts and the PF, without any write to an SR-IOV control file. -/
theorem provisionVFs_rejects_over_capacity
    (env : PFEnv) (pf : String) (D total : Nat)
    (htot : env.totalVFs = .ok total) (hgt : total < D) :
    ProvisionVFs env pf D = (.error (.exceedsMax D total pf), [])
    ∧ renderProvError (ProvError.exceedsMax D total pf) =
        "requested " ++ decRepr D ++ " VFs exceeds maximum " ++ decRepr total ++
          " for PF " ++ pf := by
  refine ⟨?_, rfl⟩
  simp only [ProvisionVFs, htot, if_pos hgt]

/-- Witness for C2: desired 16 against capacity 8. -/
theorem provisionVFs_rejects_over_capacity_witness :
    ProvisionVFs ⟨.ok 8, .ok 0, fun _ => none, fun _ => .ok 0⟩ "0000:3b:00.0" 16 =
      (.error (.exceedsMax 16 8 "0000:3b:00.0"), []) :=
  (provisionVFs_rejects_over_capacity _ _ 16 8 rfl (by decide)).1

/-- On success, the last value written to `sriov_numvfs` (or, when no write
happened, the unchanged current count) is the desired count. -/
lemma ProvisionVFs_ok_getLastD
    (env : PFEnv) (pf : String) (D total cur : Nat)
    (htot : env.totalVFs = .ok total) (hcur : env.numVFs = .ok cur)
    (hok : (ProvisionVFs env pf D).1 = .ok ()) :
    (ProvisionVFs env pf D).2.getLastD cur = D := by
  by_cases hlt : total < D
  · simp [ProvisionVFs, htot, hlt] at hok
  · by_cases hc : cur = D
    · simp [ProvisionVFs, htot, hcur, hlt, hc]
    · by_cases h0 : 0 < cur
      · cases hs0 : env.setResult 0 with
        | some e => simp [ProvisionVFs, htot, hcur, hlt, hc, h0, hs0] at hok
        | none =>
          cases hsD : env.setResult D with
          | some e => simp [ProvisionVFs, htot, hcur, hlt, hc, h0, hs0, hsD] at hok
          | none =>
            cases hw : waitForVFs env pf D with
            | error pe => simp [ProvisionVFs, htot, hcur, hlt, hc, h0, hs0, hsD, hw] at hok
            | ok u => simp [ProvisionVFs, htot, hcur, hlt, hc, h0, hs0, hsD, hw]
      · cases hsD : env.setResult D with
        | some e => simp [ProvisionVFs, htot, hcur, hlt, hc, h0, hsD] at hok
        | none =>
          cases hw : waitForVFs env pf D with
          | error pe => simp [ProvisionVFs, htot, hcur, hlt, hc, h0, hsD, hw] at hok
          | ok u => simp [ProvisionVFs, htot, hcur, hlt, hc, h0, hsD, hw]

/-- C3: if the current VF count already equals the desired count, the call
performs no kernel write and succeeds; consequently a second consecutive call
with the same desired count — run against the kernel state the successful
first call left behind (`sriov_numvfs` reads back the last written value, or
is unchanged when nothing was written) — performs zero control-file writes. -/
theorem provisionVFs_idempotent
    (env : PFEnv) (pf : String) (D total cur : Nat)
    (htot : env.totalVFs = .ok total) (hcap : D ≤ total)
    (hcur : env.numVFs = .ok cur) :
    (cur = D → ProvisionVFs env pf D = (.ok (), []))
    ∧ ((ProvisionVFs env pf D).1 = .ok () →
        ∀ env₂ : PFEnv, env₂.totalVFs = .ok total →
          env₂.numVFs = .ok ((ProvisionVFs env pf D).2.getLastD cur) →
          ProvisionVFs env₂ pf D = (.ok (), [])) := by
  have hmain : ∀ env' : PFEnv, env'.totalVFs = .ok total → env'.numVFs = .ok D →
      ProvisionVFs env' pf D = (.ok (), []) := by
    intro env' ht' hn'
    simp [ProvisionVFs, ht', hn', Nat.not_lt.mpr hcap]
  refine ⟨fun hc => hmain env htot (hc ▸ hcur), fun hok env₂ ht2 hn2 => ?_⟩
  rw [ProvisionVFs_ok_getLastD env pf D total cur htot hcur hok] at hn2
  exact hmain env₂ ht2 hn2

/-- Witness for C3: current count 2, desired 2: success with an empty write
log. -/
theorem provisionVFs_idempotent_witness :
    ProvisionVFs ⟨.ok 8, .ok 2, fun _ => none, fun _ => .ok 0⟩ "0000:3b:00.0" 2 =
      (.ok (), []) :=
  (provisionVFs_idempotent ⟨.ok 8, .ok 2, fun _ => none, fun _ => .ok 0⟩
    "0000:3b:00.0" 2 8 2 rfl (by decide) rfl).1 rfl

/-- The poll loop returns `true` exactly when some iteration within the fuel
bound observes at least `expected` VF entries. -/
lemma waitForVFsAux_eq_true_iff (env : PFEnv) (expected : Nat) :
    ∀ fuel start : Nat,
      waitForVFsAux env expected fuel start = true ↔
        ∃ j, j < fuel ∧ ∃ n, env.listVFs (start + j) = .ok n ∧ expected ≤ n := by
  intro fuel
  induction fuel with
  | zero => intro start; simp [waitForVFsAux]
  | succ f ih =>
    intro start
    cases hl : env.listVFs start with
    | ok n =>
      simp only [waitForVFsAux, hl]
      by_cases hn : expected ≤ n
      · simp only [if_pos hn, true_iff]
        exact ⟨0, by omega, n, by simpa using hl, hn⟩
      · rw [if_neg hn, ih (start + 1)]
        constructor
        · rintro ⟨j, hj, n', h1, h2⟩
          exact ⟨j + 1, by omega, n', by rw [show start + (j + 1) = start + 1 + j by omega]; exact h1, h2⟩
        · rintro ⟨j, hj, n', h1, h2⟩
          cases j with
          | zero =>
            rw [Nat.add_zero, hl] at h1
            cases h1
            exact absurd h2 hn
          | succ j' =>
            exact ⟨j', by omega, n', by rw [show start + 1 + j' = start + (j' + 1) by omega]; exact h1, h2⟩
    | error e =>
      simp only [waitForVFsAux, hl]
      rw [ih (start + 1)]
      constructor
      · rintro ⟨j, hj, n', h1, h2⟩
        exact ⟨j + 1, by omega, n', by rw [show start + (j + 1) = start + 1 + j by omega]; exact h1, h2⟩
      · rintro ⟨j, hj, n', h1, h2⟩
        cases j with
        | zero => rw [Nat.add_zero, hl] at h1; cases h1
        | succ j' =>
          exact ⟨j', by omega, n', by rw [show start + 1 + j' = start + (j' + 1) by omega]; exact h1, h2⟩

/-- C1: resizing a live VF pool writes `0` and then the desired count `D`, in
that order; the call succeeds exactly when the bounded poll observes at least
`D` VF entries in some iteration, and when every poll iteration sees fewer
than `D` entries it returns the timeout error whose message names the PF and
the requested count; the write log is `[0, D]` in every case — no rollback. -/
theorem provisionVFs_reset_then_create
    (env : PFEnv) (pf : String) (D total cur : Nat)
    (htot : env.totalVFs = .ok total) (hcap : D ≤ total)
    (hcur : env.numVFs = .ok cur) (hne0 : cur ≠ 0) (hneD : cur ≠ D)
    (hw0 : env.setResult 0 = none) (hwD : env.setResult D = none) :
    (ProvisionVFs env pf D).2 = [0, D]
    ∧ ((ProvisionVFs env pf D).1 = .ok () ↔
        ∃ k, k < vfMaxPolls ∧ ∃ n, env.listVFs k = .ok n ∧ D ≤ n)
    ∧ ((∀ k, k < vfMaxPolls → ∀ n, env.listVFs k = .ok n → n < D) →
        (ProvisionVFs env pf D).1 = .error (.vfsTimeout D pf)
        ∧ renderProvError (ProvError.vfsTimeout D pf) =
            "VFs did not appear for " ++ pf ++ ": timed out waiting for " ++
              decRepr D ++ " VFs on PF " ++ pf) := by
  have h0 : 0 < cur := Nat.pos_of_ne_zero hne0
  have haux := waitForVFsAux_eq_true_iff env D vfMaxPolls 0
  simp only [Nat.zero_add] at haux
  simp only [ProvisionVFs, htot, hcur, if_neg (Nat.not_lt.mpr hcap), if_neg hneD,
    if_pos h0, hw0, hwD, waitForVFs]
  by_cases hb : waitForVFsAux env D vfMaxPolls 0 = true
  · simp only [if_pos hb]
    refine ⟨trivial, ?_, ?_⟩
    · simp only [true_iff]
      exact haux.mp hb
    · intro hnone
      obtain ⟨j, hj, n, h1, h2⟩ := haux.mp hb
      exact absurd h2 (Nat.not_le.mpr (hnone j hj n h1))
  · simp only [if_neg hb]
    refine ⟨trivial, ?_, fun _ => ⟨trivial, by simp [renderProvError, String.append_assoc]⟩⟩
    constructor
    · intro h; cases h
    · intro hex
      exact absurd (haux.mpr hex) hb

/-- Witness for C1: a PF with 4 live VFs resized to 2, where the first poll
iteration already observes 2 VF entries: the write log is `[0, 2]` and the
call succeeds. -/
theorem provisionVFs_reset_then_create_witness :
    (ProvisionVFs ⟨.ok 8, .ok 4, fun _ => none, fun _ => .ok 2⟩ "0000:3b:00.0" 2).2 = [0, 2]
    ∧ (ProvisionVFs ⟨.ok 8, .ok 4, fun _ => none, fun _ => .ok 2⟩ "0000:3b:00.0" 2).1 = .ok () := by
  have h := provisionVFs_reset_then_create
    ⟨.ok 8, .ok 4, fun _ => none, fun _ => .ok 2⟩ "0000:3b:00.0" 2 8 4
    rfl (by decide) rfl (by decide) (by decide) rfl rfl
  exact ⟨h.1, h.2.1.mpr ⟨0, by decide, 2, rfl, by decide⟩⟩

/-- C5 (amended): in the fleet-provisioning loop, a hard error on one adapter
aborts the whole pass — the wrapped error propagates and no later PF is
attempted (only the PFs up to and including the failing one appear in the
attempted list); when the head PF succeeds the loop does continue with the
rest. -/
theorem provisionVFs_fleet_aborts
    (numVFs : Nat) (envOf : String → PFEnv) (pf : PFInfo) (rest : List PFInfo) :
    (∀ e, (ProvisionVFs (envOf pf.PCIAddress) pf.PCIAddress (min numVFs pf.TotalVFs)).1
        = .error e →
      provisionVFs numVFs envOf (pf :: rest) = (.error (pf.PCIAddress, e), [pf.PCIAddress]))
    ∧ ((ProvisionVFs (envOf pf.PCIAddress) pf.PCIAddress (min numVFs pf.TotalVFs)).1
        = .ok () →
      provisionVFs numVFs envOf (pf :: rest) =
        ((provisionVFsLoop numVFs envOf rest).1,
          pf.PCIAddress :: (provisionVFsLoop numVFs envOf rest).2)) := by
  rcases hP : ProvisionVFs (envOf pf.PCIAddress) pf.PCIAddress (min numVFs pf.TotalVFs)
    with ⟨r, l⟩
  constructor
  · intro e he
    simp only at he
    subst he
    simp [provisionVFs, provisionVFsLoop, hP]
  · intro hok
    simp only at hok
    subst hok
    simp [provisionVFs, provisionVFsLoop, hP]

/-- Counterexample for C5: two SR-IOV PFs, where the first fails with a
control-file write error.  The fleet pass returns that error and provisioning
is never attempted on the second PF, contradicting "provisioning is still
attempted on every remaining PF". -/
theorem provisionVFs_fleet_counterexample :
    provisionVFs 2
        (fun _ => ⟨.ok 8, .ok 0, fun _ => some "EIO", fun _ => .ok 0⟩)
        [⟨"0000:01:00.0", "mlx5_0", 8, 0⟩, ⟨"0000:02:00.0", "mlx5_1", 8, 0⟩]
      = (.error ("0000:01:00.0", .setFailed 2 "0000:01:00.0" "EIO"), ["0000:01:00.0"])
    ∧ "0000:02:00.0" ∉ (provisionVFs 2
        (fun _ => ⟨.ok 8, .ok 0, fun _ => some "EIO", fun _ => .ok 0⟩)
        [⟨"0000:01:00.0", "mlx5_0", 8, 0⟩, ⟨"0000:02:00.0", "mlx5_1", 8, 0⟩]).2 := by
  refine ⟨rfl, ?_⟩
  show "0000:02:00.0" ∉ ["0000:01:00.0"]
  decide

/-- Witness for C5's amended theorem: a reset-write failure on the head PF
aborts the pass with only the head PF attempted. -/
theorem provisionVFs_fleet_aborts_witness :
    provisionVFs 4
        (fun _ => ⟨.ok 8, .ok 2, fun _ => some "device or resource busy", fun _ => .ok 0⟩)
        [⟨"0000:5e:00.0", "mlx5_2", 8, 2⟩, ⟨"0000:5f:00.0", "mlx5_3", 8, 2⟩]
      = (.error ("0000:5e:00.0", .resetFailed "0000:5e:00.0" "device or resource busy"),
          ["0000:5e:00.0"]) :=
  (provisionVFs_fleet_aborts 4
    (fun _ => ⟨.ok 8, .ok 2, fun _ => some "device or resource busy", fun _ => .ok 0⟩)
    ⟨"0000:5e:00.0", "mlx5_2", 8, 2⟩ [⟨"0000:5f:00.0", "mlx5_3", 8, 2⟩]).1
    (.resetFailed "0000:5e:00.0" "device or resource busy") rfl

/-- C4: `EffectiveSpeed` is base rate times lane multiplier rendered as
`<N>Gb/s`, with width codes 1/2/4/8 mapping to multipliers 1/4/8/12 and speed
codes 1/2/4/8/16/32/64/128/256 mapping to base rates 2/5/10/10/14/25/50/100/200;
a speed code outside the table renders as `<code * multiplier>Gb/s` with no
table lookup.  In particular width 2 with speed 32 gives `100Gb/s` and width
1 with speed 4 gives `10Gb/s`. -/
theorem effectiveSpeed_tables :
    (∀ p ∈ ([(1, 1), (2, 4), (4, 8), (8, 12)] : List (Int × Int)),
      ∀ q ∈ ([(1, 2), (2, 5), (4, 10), (8, 10), (16, 14), (32, 25), (64, 50),
              (128, 100), (256, 200)] : List (Int × Int)),
        EffectiveSpeed q.1 p.1 = intRepr (q.2 * p.2) ++ "Gb/s")
    ∧ (∀ s : Int, s ∉ ([1, 2, 4, 8, 16, 32, 64, 128, 256] : List Int) →
        ∀ p ∈ ([(1, 1), (2, 4), (4, 8), (8, 12)] : List (Int × Int)),
          EffectiveSpeed s p.1 = intRepr (s * p.2) ++ "Gb/s")
    ∧ EffectiveSpeed 32 2 = "100Gb/s"
    ∧ EffectiveSpeed 4 1 = "10Gb/s" := by
  refine ⟨by decide, ?_, by decide, by decide⟩
  intro s hs p hp
  simp only [List.mem_cons, List.not_mem_nil, or_false, not_or] at hs
  obtain ⟨h1, h2, h4, h8, h16, h32, h64, h128, h256⟩ := hs
  have hb : baseSpeed s = none := by
    simp [baseSpeed, h1, h2, h4, h8, h16, h32, h64, h128, h256]
  fin_cases hp <;> simp [EffectiveSpeed, hb, widthMultiplier]

/-- Witness for C4: the EDR 4-lane row of the table, and the fallback at the
unrecognized speed code 7 with width code 2. -/
theorem effectiveSpeed_tables_witness :
    EffectiveSpeed 32 2 = intRepr (25 * 4) ++ "Gb/s"
    ∧ EffectiveSpeed 7 2 = intRepr (7 * 4) ++ "Gb/s" :=
  ⟨effectiveSpeed_tables.1 (2, 4) (by decide) (32, 25) (by decide),
   effectiveSpeed_tables.2.1 7 (by decide) (2, 4) (by decide)⟩

/-- The interface-move loop succeeds (returns `none`) exactly when every
interface move succeeds. -/
lemma moveNetdevLoop_eq_none_iff (move : String → Option String) :
    ∀ nds : List String,
      moveNetdevLoop move nds = none ↔ ∀ nd ∈ nds, move nd = none := by
  intro nds
  induction nds with
  | nil => simp [moveNetdevLoop]
  | cons nd rest ih =>
    cases hm : move nd with
    | some e => simp [moveNetdevLoop, hm]
    | none => simp [moveNetdevLoop, hm, ih]

/-- C9: the hook helper fails whenever some associated interface fails to
move into the target namespace, and succeeds whenever every interface move
succeeds — regardless of the outcome of the RDMA-device namespace move, which
is logged and swallowed. -/
theorem moveNetdevHookHelper_asymmetry
    (env : HookEnv) (ibDevName : String) (nds : List String)
    (hdev : env.devInfo = .ok nds) :
    ((∀ nd ∈ nds, env.moveNetdev nd = none) →
      ∀ rdma : Option String,
        MoveNetdevHookHelper
          ⟨env.devInfo, env.moveNetdev, rdma⟩ ibDevName = .ok ())
    ∧ ((∃ nd ∈ nds, env.moveNetdev nd ≠ none) →
      ∃ msg, MoveNetdevHookHelper env ibDevName = .error msg) := by
  constructor
  · intro hall rdma
    have hloop : moveNetdevLoop env.moveNetdev nds = none := by
      rw [moveNetdevLoop_eq_none_iff]
      exact hall
    cases hr : rdma <;>
      simp [MoveNetdevHookHelper, hdev, hloop, hr]
  · intro hsome
    have hloop : moveNetdevLoop env.moveNetdev nds ≠ none := by
      rw [ne_eq, moveNetdevLoop_eq_none_iff]
      push_neg
      obtain ⟨nd, hmem, hne⟩ := hsome
      exact ⟨nd, hmem, hne⟩
    cases hl : moveNetdevLoop env.moveNetdev nds with
    | none => exact absurd hl hloop
    | some p =>
      exact ⟨"move netdev " ++ p.1 ++ ": " ++ p.2, by
        simp [MoveNetdevHookHelper, hdev, hl]⟩

/-- Witness for C9: two interfaces; with both moves succeeding and the RDMA
move failing the helper succeeds, while a failing interface move yields an
error. -/
theorem moveNetdevHookHelper_asymmetry_witness :
    MoveNetdevHookHelper
        ⟨.ok ["ib0", "ib1"], fun _ => none, some "rdma netns not supported"⟩ "mlx5_0"
      = .ok ()
    ∧ ∃ msg, MoveNetdevHookHelper
        ⟨.ok ["ib0", "ib1"], fun nd => if nd = "ib1" then some "EPERM" else none, none⟩
        "mlx5_0" = .error msg :=
  ⟨(moveNetdevHookHelper_asymmetry
      ⟨.ok ["ib0", "ib1"], fun _ => none, some "rdma netns not supported"⟩ "mlx5_0"
      ["ib0", "ib1"] rfl).1 (by intro nd _; rfl) (some "rdma netns not supported"),
   (moveNetdevHookHelper_asymmetry
      ⟨.ok ["ib0", "ib1"], fun nd => if nd = "ib1" then some "EPERM" else none, none⟩
      "mlx5_0" ["ib0", "ib1"] rfl).2 ⟨"ib1", by decide, by decide⟩⟩

/-- Soundness of `splitFirst`: a successful split decomposes the input at an
occurrence of the separator, and that occurrence is the first one. -/
lemma splitFirst_sound (sep : List Char) :
    ∀ l b a, splitFirst sep l = some (b, a) →
      l = b ++ sep ++ a ∧ ∀ b' a', l = b' ++ sep ++ a' → b.length ≤ b'.length := by
  intro l
  induction l with
  | nil => intro b a h; simp [splitFirst] at h
  | cons c cs ih =>
    intro b a h
    by_cases hp : sep <+: (c :: cs)
    · rw [show splitFirst sep (c :: cs) = some ([], (c :: cs).drop sep.length) by
        simp [splitFirst, hp]] at h
      simp only [Option.some.injEq, Prod.mk.injEq] at h
      obtain ⟨hb, ha⟩ := h
      subst hb
      obtain ⟨t, ht⟩ := hp
      refine ⟨?_, fun b' a' _ => Nat.zero_le _⟩
      subst ha
      rw [← ht, List.nil_append, List.drop_left]
    · rw [show splitFirst sep (c :: cs) =
          (match splitFirst sep cs with
           | some (b, a) => some (c :: b, a)
           | none => none) by simp [splitFirst, hp]] at h
      cases hs : splitFirst sep cs with
      | none => rw [hs] at h; cases h
      | some p =>
        obtain ⟨b₀, a₀⟩ := p
        rw [hs] at h
        simp only [Option.some.injEq, Prod.mk.injEq] at h
        obtain ⟨hb, ha⟩ := h
        obtain ⟨hdec, hmin⟩ := ih b₀ a₀ hs
        subst hb
        subst ha
        constructor
        · simp only [List.cons_append]
          exact congrArg (List.cons c) hdec
        · intro b' a' h'
          cases b' with
          | nil =>
            exfalso
            apply hp
            rw [h', List.nil_append]
            exact List.prefix_append sep a'
          | cons c' b₁ =>
            simp only [List.cons_append, List.cons.injEq] at h'
            have hlen := hmin b₁ a' h'.2
            simp only [List.length_cons]
            omega

/-- Completeness of `splitFirst`: a `none` result means the separator does
not occur in the input. -/
lemma splitFirst_none (sep : List Char) (hsep : sep ≠ []) :
    ∀ l, splitFirst sep l = none → ∀ b a, l ≠ b ++ sep ++ a := by
  intro l
  induction l with
  | nil =>
    intro _ b a hcontra
    rcases b with _ | _
    · rcases sep with _ | _
      · exact hsep rfl
      · cases hcontra
    · cases hcontra
  | cons c cs ih =>
    intro h b a hcontra
    by_cases hp : sep <+: (c :: cs)
    · rw [show splitFirst sep (c :: cs) = some ([], (c :: cs).drop sep.length) by
        simp [splitFirst, hp]] at h
      cases h
    · rw [show splitFirst sep (c :: cs) =
          (match splitFirst sep cs with
           | some (b, a) => some (c :: b, a)
           | none => none) by simp [splitFirst, hp]] at h
      cases hs : splitFirst sep cs with
      | some p => rw [hs] at h; obtain ⟨b₀, a₀⟩ := p; cases h
      | none =>
        cases b with
        | nil =>
          apply hp
          rw [hcontra, List.nil_append]
          exact List.prefix_append sep a
        | cons c' b₁ =>
          simp only [List.cons_append, List.cons.injEq] at hcontra
          exact ih hs b₁ a hcontra.2

/-- C10: `applyIbConfig` treats a device name as parseable exactly when it
contains the literal substring `-port`, with no validation of the remainder:
for any decomposition `device = b ++ "-port" ++ a` — even with `a` empty or
non-numeric — the per-device edits still contain the adapter and port
variables and the hook descriptor, with the port variable carrying the raw
text after the first `-port` occurrence and the hook argument the text
before it. -/
theorem applyIbConfig_splits_on_first_port
    (config : IbConfig) (i : Nat) (device b a : String)
    (h : device = b ++ "-port" ++ a) :
    ∃ b₀ a₀ : String,
      splitNPort device = some (b₀, a₀)
      ∧ device = b₀ ++ "-port" ++ a₀
      ∧ (∀ b' a' : String, device = b' ++ "-port" ++ a' → b₀.length ≤ b'.length)
      ∧ ("IB_DEVICE_" ++ decRepr i ++ "_IBDEV=" ++ b₀) ∈ (deviceEdits config i device).Env
      ∧ ("IB_DEVICE_" ++ decRepr i ++ "_PORT=" ++ a₀) ∈ (deviceEdits config i device).Env
      ∧ (deviceEdits config i device).Hooks =
          [⟨"createRuntime", hookPath, [hookPath, "move-netdev", "--ib-dev", b₀]⟩] := by
  have hdata : device.data = b.data ++ "-port".data ++ a.data := by
    rw [h]
    simp [String.data_append]
  cases hsp : splitFirst "-port".data device.data with
  | none =>
    exact absurd hdata (splitFirst_none "-port".data (by decide) device.data hsp b.data a.data)
  | some p =>
    obtain ⟨bl, al⟩ := p
    obtain ⟨hdec, hmin⟩ := splitFirst_sound "-port".data device.data bl al hsp
    have hsome : splitNPort device = some (⟨bl⟩, ⟨al⟩) := by
      simp [splitNPort, hsp]
    refine ⟨⟨bl⟩, ⟨al⟩, hsome, ?_, ?_, ?_, ?_, ?_⟩
    · apply String.ext
      simpa [String.data_append] using hdec
    · intro b' a' h'
      have : device.data = b'.data ++ "-port".data ++ a'.data := by
        rw [h']
        simp [String.data_append]
      exact hmin b'.data a'.data this
    · obtain ⟨pk, tc, mtu⟩ := config
      cases pk <;> cases tc <;> cases mtu <;> simp [deviceEdits, hsome]
    · obtain ⟨pk, tc, mtu⟩ := config
      cases pk <;> cases tc <;> cases mtu <;> simp [deviceEdits, hsome]
    · simp [deviceEdits, hsome]

/-- Witness for C10: the non-numeric device name `a-portxyz`. -/
theorem applyIbConfig_splits_on_first_port_witness :
    ∃ b₀ a₀ : String,
      splitNPort "a-portxyz" = some (b₀, a₀)
      ∧ "a-portxyz" = b₀ ++ "-port" ++ a₀
      ∧ (∀ b' a' : String, "a-portxyz" = b' ++ "-port" ++ a' → b₀.length ≤ b'.length)
      ∧ ("IB_DEVICE_" ++ decRepr 0 ++ "_IBDEV=" ++ b₀)
          ∈ (deviceEdits ⟨none, none, none⟩ 0 "a-portxyz").Env
      ∧ ("IB_DEVICE_" ++ decRepr 0 ++ "_PORT=" ++ a₀)
          ∈ (deviceEdits ⟨none, none, none⟩ 0 "a-portxyz").Env
      ∧ (deviceEdits ⟨none, none, none⟩ 0 "a-portxyz").Hooks =
          [⟨"createRuntime", hookPath, [hookPath, "move-netdev", "--ib-dev", b₀]⟩] :=
  applyIbConfig_splits_on_first_port ⟨none, none, none⟩ 0 "a-portxyz" "a" "xyz" rfl

/-- C8: for a valid config, `applyIbConfig` succeeds and emits, per device in
input order: the positional device variable first; adapter-name and
port-number variables exactly when the name splits on `-port`; the
partition-key variable (`0x%04X`) only if `Pkey` is set; the traffic-class
and MTU variables in decimal only if set; and exactly one `createRuntime`
hook carrying the adapter name when the name split, and no hook otherwise. -/
theorem applyIbConfig_emits
    (config : IbConfig) (results : List String)
    (hvalid : config.validate = true) :
    ∃ edits : List (String × ContainerEdits),
      applyIbConfig config results = .ok edits
      ∧ edits.length = results.length
      ∧ ∀ i d, results[i]? = some d →
          edits[i]? = some (d,
            ({ Env :=
                ["IB_DEVICE_" ++ decRepr i ++ "=" ++ d]
                ++ (match splitNPort d with
                    | some (adapter, port) =>
                        ["IB_DEVICE_" ++ decRepr i ++ "_IBDEV=" ++ adapter,
                         "IB_DEVICE_" ++ decRepr i ++ "_PORT=" ++ port]
                    | none => [])
                ++ (match config.Pkey with
                    | some p => ["IB_DEVICE_" ++ decRepr i ++ "_PKEY=0x" ++ hex04Upper p]
                    | none => [])
                ++ (match config.TrafficClass with
                    | some t => ["IB_DEVICE_" ++ decRepr i ++ "_TRAFFIC_CLASS=" ++ decRepr t]
                    | none => [])
                ++ (match config.MTU with
                    | some m => ["IB_DEVICE_" ++ decRepr i ++ "_MTU=" ++ intRepr m]
                    | none => []),
               Hooks :=
                match splitNPort d with
                | some (adapter, _) =>
                    [⟨"createRuntime", hookPath, [hookPath, "move-netdev", "--ib-dev", adapter]⟩]
                | none => [] } : ContainerEdits)) := by
  refine ⟨results.mapIdx fun i device => (device, deviceEdits config i device), ?_, ?_, ?_⟩
  · simp [applyIbConfig, hvalid]
  · simp
  · intro i d hd
    rw [List.getElem?_mapIdx, hd]
    simp only [Option.map_some']
    refine congrArg some (congrArg (Prod.mk d) ?_)
    obtain ⟨pk, tc, mtu⟩ := config
    rcases hsp : splitNPort d with _ | ⟨ad, po⟩ <;> cases pk <;> cases tc <;> cases mtu <;>
      simp [deviceEdits, hsp]

/-- Witness for C8: a set partition key with one parsing and one non-parsing
device name. -/
theorem applyIbConfig_emits_witness :
    ∃ edits,
      applyIbConfig ⟨some 0x8001, none, none⟩ ["mlx5_1-port2", "plainname"] = .ok edits
      ∧ edits.length = 2 := by
  obtain ⟨edits, h1, h2, _⟩ :=
    applyIbConfig_emits ⟨some 0x8001, none, none⟩ ["mlx5_1-port2", "plainname"] (by decide)
  exact ⟨edits, h1, by rw [h2]; rfl⟩

/-- C6: fusion emits one `DeviceEntry` per reported port of every reported
adapter (never dropping a port), and for an adapter with no matching sysfs
record every emitted entry defaults to kind `PF` with empty PCI address,
NUMA node `-1` and no network interfaces. -/
theorem fusion_no_topology_defaults
    (ibDevs : List IbDevice) (sysfs : List SysfsInfo) :
    (buildEntries ibDevs sysfs).length = (ibDevs.map fun d => d.Ports.length).sum
    ∧ ∀ d ∈ ibDevs, sysfsLookup sysfs d.name = none →
        ∀ port ∈ d.Ports,
          buildEntry (pciLookup sysfs) d none port ∈ buildEntries ibDevs sysfs
          ∧ (buildEntry (pciLookup sysfs) d none port).DevType = "PF"
          ∧ (buildEntry (pciLookup sysfs) d none port).PCIAddress = ""
          ∧ (buildEntry (pciLookup sysfs) d none port).NUMANode = -1
          ∧ (buildEntry (pciLookup sysfs) d none port).NetDevices = [] := by
  constructor
  · rw [buildEntries, List.length_flatMap]
    simp only [Function.comp_def, List.length_map]
  · intro d hd hnone port hport
    refine ⟨?_, by simp [buildEntry], by simp [buildEntry], by simp [buildEntry],
      by simp [buildEntry]⟩
    rw [buildEntries, List.mem_flatMap]
    exact ⟨d, hd, by rw [hnone]; exact List.mem_map_of_mem _ hport⟩

/-- Witness for C6: one two-port adapter and an empty topology listing. -/
theorem fusion_no_topology_defaults_witness :
    (buildEntries [⟨"mlx5_0", 0, "20.39", [⟨1, 4, 32, 2, []⟩, ⟨2, 1, 4, 1, []⟩]⟩] []).length = 2
    ∧ (buildEntry (pciLookup [])
        ⟨"mlx5_0", 0, "20.39", [⟨1, 4, 32, 2, []⟩, ⟨2, 1, 4, 1, []⟩]⟩ none
        ⟨1, 4, 32, 2, []⟩).DevType = "PF" := by
  have h := fusion_no_topology_defaults
    [⟨"mlx5_0", 0, "20.39", [⟨1, 4, 32, 2, []⟩, ⟨2, 1, 4, 1, []⟩]⟩] []
  refine ⟨by rw [h.1]; rfl, ?_⟩
  exact (h.2 ⟨"mlx5_0", 0, "20.39", [⟨1, 4, 32, 2, []⟩, ⟨2, 1, 4, 1, []⟩]⟩ (by simp) rfl
    ⟨1, 4, 32, 2, []⟩ (by simp)).2.1

/-- Every decimal digit value produced is below 10. -/
lemma natDigitsAux_mem_lt : ∀ fuel n d, d ∈ natDigitsAux fuel n → d < 10 := by
  intro fuel
  induction fuel with
  | zero => intro n d h; simp [natDigitsAux] at h
  | succ f ih =>
    intro n d h
    by_cases h10 : n < 10
    · simp [natDigitsAux, h10] at h
      omega
    · simp only [natDigitsAux, if_neg h10, List.mem_append, List.mem_singleton] at h
      rcases h with h | h
      · exact ih _ _ h
      · omega

/-- With positive fuel the digit list is never empty. -/
lemma natDigitsAux_ne_nil (fuel n : Nat) (h : 0 < fuel) : natDigitsAux fuel n ≠ [] := by
  cases fuel with
  | zero => omega
  | succ f =>
    by_cases h10 : n < 10 <;> simp [natDigitsAux, h10]

/-- Decimal digit lists determine the number (given sufficient fuel). -/
lemma natDigitsAux_inj :
    ∀ f₁ m f₂ n, m < f₁ → n < f₂ → natDigitsAux f₁ m = natDigitsAux f₂ n → m = n := by
  intro f₁
  induction f₁ with
  | zero => intro m f₂ n hm; omega
  | succ f ih =>
    intro m f₂ n hm hn h
    cases f₂ with
    | zero => omega
    | succ g =>
      by_cases hm10 : m < 10 <;> by_cases hn10 : n < 10
      · simpa [natDigitsAux, hm10, hn10] using h
      · exfalso
        simp only [natDigitsAux, if_pos hm10, if_neg hn10] at h
        have hne : natDigitsAux g (n / 10) ≠ [] := natDigitsAux_ne_nil g (n / 10) (by omega)
        have hlen := congrArg List.length h
        simp only [List.length_cons, List.length_nil, List.length_append] at hlen
        exact hne (List.eq_nil_of_length_eq_zero (by omega))
      · exfalso
        simp only [natDigitsAux, if_neg hm10, if_pos hn10] at h
        have hne : natDigitsAux f (m / 10) ≠ [] := natDigitsAux_ne_nil f (m / 10) (by omega)
        have hlen := congrArg List.length h
        simp only [List.length_cons, List.length_nil, List.length_append] at hlen
        exact hne (List.eq_nil_of_length_eq_zero (by omega))
      · simp only [natDigitsAux, if_neg hm10, if_neg hn10] at h
        obtain ⟨h1, h2⟩ := List.append_inj' h rfl
        have hdiv : m / 10 = n / 10 := ih (m / 10) g (n / 10) (by omega) (by omega) h1
        simp only [List.cons.injEq] at h2
        omega

/-- `digitChar` is injective on digit values. -/
lemma digitChar_inj_lt (a b : Nat) (ha : a < 10) (hb : b < 10) :
    digitChar a = digitChar b → a = b := by
  interval_cases a <;> interval_cases b <;> decide

/-- No digit character is the dash. -/
lemma digitChar_ne_dash (d : Nat) (hd : d < 10) : digitChar d ≠ '-' := by
  interval_cases d <;> decide

/-- Mapping `digitChar` over digit lists is injective. -/
lemma map_digitChar_inj :
    ∀ l₁ l₂ : List Nat, (∀ d ∈ l₁, d < 10) → (∀ d ∈ l₂, d < 10) →
      l₁.map digitChar = l₂.map digitChar → l₁ = l₂ := by
  intro l₁
  induction l₁ with
  | nil => intro l₂ _ _ h; cases l₂ <;> simp_all
  | cons x xs ih =>
    intro l₂ h₁ h₂ h
    cases l₂ with
    | nil => simp at h
    | cons y ys =>
      simp only [List.map_cons, List.cons.injEq] at h
      have hx := digitChar_inj_lt x y (h₁ x (by simp)) (h₂ y (by simp)) h.1
      rw [hx, ih ys (fun d hd => h₁ d (by simp [hd])) (fun d hd => h₂ d (by simp [hd])) h.2]

/-- The decimal rendering of a natural number contains no dash. -/
lemma dash_not_mem_decRepr (n : Nat) : '-' ∉ (decRepr n).data := by
  intro hmem
  simp only [decRepr, List.mem_map] at hmem
  obtain ⟨d, hd, hc⟩ := hmem
  exact digitChar_ne_dash d (natDigitsAux_mem_lt _ _ _ hd) hc

/-- Splitting a string of shape `n ++ "-port" ++ d` with dash-free tail `d`
is unambiguous. -/
lemma appendSepInj :
    ∀ n₁ n₂ d₁ d₂ : List Char,
      '-' ∉ d₁ → '-' ∉ d₂ →
      n₁ ++ '-' :: 'p' :: 'o' :: 'r' :: 't' :: d₁ = n₂ ++ '-' :: 'p' :: 'o' :: 'r' :: 't' :: d₂ →
      n₁ = n₂ ∧ d₁ = d₂ := by
  intro n₁
  induction n₁ with
  | nil =>
    intro n₂ d₁ d₂ h₁ h₂ h
    cases n₂ with
    | nil =>
      simp only [List.nil_append, List.cons.injEq, true_and] at h
      exact ⟨rfl, h⟩
    | cons c m =>
      exfalso
      simp only [List.nil_append, List.cons_append, List.cons.injEq] at h
      have hmem : '-' ∈ ('p' :: 'o' :: 'r' :: 't' :: d₁) := by
        rw [h.2]
        simp
      simp only [List.mem_cons] at hmem
      rcases hmem with h' | h' | h' | h' | h'
      · exact absurd h' (by decide)
      · exact absurd h' (by decide)
      · exact absurd h' (by decide)
      · exact absurd h' (by decide)
      · exact h₁ h'
  | cons a m₁ ih =>
    intro n₂ d₁ d₂ h₁ h₂ h
    cases n₂ with
    | nil =>
      exfalso
      simp only [List.nil_append, List.cons_append, List.cons.injEq] at h
      have hmem : '-' ∈ ('p' :: 'o' :: 'r' :: 't' :: d₂) := by
        rw [← h.2]
        simp
      simp only [List.mem_cons] at hmem
      rcases hmem with h' | h' | h' | h' | h'
      · exact absurd h' (by decide)
      · exact absurd h' (by decide)
      · exact absurd h' (by decide)
      · exact absurd h' (by decide)
      · exact h₂ h'
    | cons b m₂ =>
      simp only [List.cons_append, List.cons.injEq] at h
      obtain ⟨hm, hd⟩ := ih m₂ d₁ d₂ h₁ h₂ h.2
      exact ⟨by rw [h.1, hm], hd⟩

/-- The composite device name determines the adapter name and port number. -/
lemma mkDeviceName_inj {n₁ n₂ : String} {k₁ k₂ : Nat}
    (h : mkDeviceName n₁ k₁ = mkDeviceName n₂ k₂) : n₁ = n₂ ∧ k₁ = k₂ := by
  have hd := congrArg String.data h
  simp only [mkDeviceName, String.data_append] at hd
  rw [List.append_assoc, List.append_assoc] at hd
  obtain ⟨hn, hdd⟩ := appendSepInj n₁.data n₂.data (decRepr k₁).data (decRepr k₂).data
    (dash_not_mem_decRepr k₁) (dash_not_mem_decRepr k₂) hd
  refine ⟨String.ext hn, ?_⟩
  have hnd : natDigits k₁ = natDigits k₂ :=
    map_digitChar_inj (natDigits k₁) (natDigits k₂)
      (fun d hd' => natDigitsAux_mem_lt _ _ _ hd')
      (fun d hd' => natDigitsAux_mem_lt _ _ _ hd') hdd
  exact natDigitsAux_inj (k₁ + 1) k₁ (k₂ + 1) k₂ (by omega) (by omega) hnd

/-- The fusion step names every entry `<adapter>-port<N>`. -/
lemma buildEntry_DeviceName (pci : String → Option String) (d : IbDevice)
    (si : Option SysfsInfo) (p : IbPort) :
    (buildEntry pci d si p).DeviceName = mkDeviceName d.name p.PortNum := by
  cases si <;> rfl

/-- C7: within one snapshot, composite device names are unique, given that
the reported adapter names are distinct and each adapter reports distinct
port numbers (as the per-port query loop guarantees). -/
theorem deviceNames_unique
    (ibDevs : List IbDevice) (sysfs : List SysfsInfo)
    (hnames : (ibDevs.map fun d => d.name).Nodup)
    (hports : ∀ d ∈ ibDevs, (d.Ports.map fun p => p.PortNum).Nodup) :
    ((buildEntries ibDevs sysfs).map fun e => e.DeviceName).Nodup := by
  rw [buildEntries, List.map_flatMap]
  have hrw : ∀ d : IbDevice,
      ((d.Ports.map
          (buildEntry (pciLookup sysfs) d (sysfsLookup sysfs d.name))).map
        fun e => e.DeviceName)
        = (d.Ports.map fun p => p.PortNum).map fun k => mkDeviceName d.name k := by
    intro d
    rw [List.map_map, List.map_map]
    simp only [Function.comp_def, buildEntry_DeviceName]
  rw [List.nodup_flatMap]
  constructor
  · intro d hd
    rw [hrw d]
    refine List.Nodup.map ?_ (hports d hd)
    intro k₁ k₂ hk
    exact (mkDeviceName_inj hk).2
  · have hp : ibDevs.Pairwise fun d₁ d₂ => d₁.name ≠ d₂.name :=
      List.pairwise_map.mp hnames
    refine hp.imp ?_
    intro d₁ d₂ hne
    intro x hx₁ hx₂
    have hx₁' : x ∈ (d₁.Ports.map fun p => p.PortNum).map fun k => mkDeviceName d₁.name k := by
      rw [← hrw d₁]; exact hx₁
    have hx₂' : x ∈ (d₂.Ports.map fun p => p.PortNum).map fun k => mkDeviceName d₂.name k := by
      rw [← hrw d₂]; exact hx₂
    obtain ⟨k₁, _, hk₁⟩ := List.mem_map.mp hx₁'
    obtain ⟨k₂, _, hk₂⟩ := List.mem_map.mp hx₂'
    exact hne (mkDeviceName_inj (hk₁.trans hk₂.symm)).1

/-- Witness for C7: two adapters with two ports each produce four distinct
composite names. -/
theorem deviceNames_unique_witness :
    ((buildEntries
        [⟨"mlx5_0", 0, "20.39", [⟨1, 4, 32, 2, []⟩, ⟨2, 1, 4, 1, []⟩]⟩,
         ⟨"mlx5_1", 1, "20.39", [⟨1, 4, 32, 2, []⟩, ⟨2, 1, 4, 1, []⟩]⟩]
        [⟨"mlx5_0", "0000:3b:00.0", 0, false, "", ["ib0"]⟩]).map
      fun e => e.DeviceName).Nodup :=
  deviceNames_unique
    [⟨"mlx5_0", 0, "20.39", [⟨1, 4, 32, 2, []⟩, ⟨2, 1, 4, 1, []⟩]⟩,
     ⟨"mlx5_1", 1, "20.39", [⟨1, 4, 32, 2, []⟩, ⟨2, 1, 4, 1, []⟩]⟩]
    [⟨"mlx5_0", "0000:3b:00.0", 0, false, "", ["ib0"]⟩]
    (by decide) (by decide)

end DRA
